import Mathlib

/-!
Shallow embedding of `src/examples/network/simple_tcp_server.cpp` (hkr04/cpp-mcp):
the JSON data model (nlohmann::json restricted to what the server builds and
inspects), `SimpleTcpServer::process_request`, and the newline framing loop of
`SimpleTcpServer::handle_client`.

Conventions of the embedding:
- `Json` mirrors an nlohmann::json value; objects are association lists in
  insertion order (nlohmann sorts keys only at `dump` time, which does not
  change the value).
- C++ exceptions are modelled with `Except String`: `json::parse` failure is an
  `.error` input to `process_request`; `value()` type errors raise `.error`
  inside the handler, and the `catch` block of `process_request` turns any
  `.error` into the `-32700` response, exactly as lines 302-311 of the source.
- `process_request` returning the empty string (no response) is `none`;
  returning `resp.dump()` is `some resp` at the JSON level.
- `std::ctime` (the "time" tool) is an environment input, passed as the `now`
  argument.
-/

namespace SimpleTcp

/-- JSON values as built and inspected by the server (nlohmann::json). -/
inductive Json where
  | null : Json
  | bool : Bool → Json
  | num : Int → Json
  | str : String → Json
  | arr : List Json → Json
  | obj : List (String × Json) → Json

/-- Field lookup in an object's association list (first binding wins). -/
def lookupField : List (String × Json) → String → Option Json
  | [], _ => none
  | (k, v) :: rest, key => if k = key then some v else lookupField rest key

/-- nlohmann `operator[]`/find on a const json: a field of an object, else nothing. -/
def Json.getField : Json → String → Option Json
  | .obj fields, key => lookupField fields key
  | _, _ => none

/-- nlohmann `contains(key)`: true only for objects holding the key. -/
def Json.hasField (j : Json) (key : String) : Bool :=
  (j.getField key).isSome

/-- nlohmann `value(key, std::string default)`: throws type_error.306 on a
non-object, returns the default when the key is absent, throws type_error.302
when the stored field is not a string. -/
def Json.valueStr : Json → String → String → Except String String
  | .obj fields, key, dflt =>
    match lookupField fields key with
    | none => .ok dflt
    | some (.str s) => .ok s
    | some _ => .error "[json.exception.type_error.302] type must be string"
  | _, _, _ => .error "[json.exception.type_error.306] cannot use value() with a non-object"

/-- nlohmann `value(key, json default)`: throws type_error.306 on a non-object,
otherwise the stored field or the default (no conversion can fail). -/
def Json.valueJson : Json → String → Json → Except String Json
  | .obj fields, key, dflt =>
    match lookupField fields key with
    | none => .ok dflt
    | some v => .ok v
  | _, _, _ => .error "[json.exception.type_error.306] cannot use value() with a non-object"

/-- The guard of lines 202-204: `request.contains("jsonrpc") && request["jsonrpc"] == "2.0"`
(the code drops the message when this is false). nlohmann `==` between a json
and `"2.0"` holds exactly for the string value `"2.0"`. -/
def jsonrpcOk (request : Json) : Bool :=
  match request.getField "jsonrpc" with
  | some (.str s) => s = "2.0"
  | _ => false

/-- A response whose third member is `result` (lines 210-212 plus a
`response["result"] = ...` assignment). -/
def mkResult (id result : Json) : Json :=
  .obj [("jsonrpc", .str "2.0"), ("id", id), ("result", result)]

/-- A response whose third member is `error` (lines 210-212 plus a
`response["error"] = ...` assignment). -/
def mkError (id : Json) (code : Int) (message : String) : Json :=
  .obj [("jsonrpc", .str "2.0"), ("id", id), ("error",
    .obj [("code", .num code), ("message", .str message)])]

/-- The `initialize` result object of lines 215-225. -/
def initializeResult : Json :=
  .obj [("protocolVersion", .str "2024-11-05"),
        ("capabilities", .obj [("tools", .obj []), ("resources", .obj [])]),
        ("serverInfo", .obj [("name", .str "SimpleTcpServer"), ("version", .str "1.0.0")])]

/-- The `echo` tool descriptor of lines 234-247. -/
def echoDescriptor : Json :=
  .obj [("name", .str "echo"),
        ("description", .str "Echo the input text"),
        ("inputSchema", .obj [
          ("type", .str "object"),
          ("properties", .obj [
            ("text", .obj [("type", .str "string"), ("description", .str "Text to echo")])]),
          ("required", .arr [.str "text"])])]

/-- The `time` tool descriptor of lines 248-255. -/
def timeDescriptor : Json :=
  .obj [("name", .str "time"),
        ("description", .str "Get current time"),
        ("inputSchema", .obj [("type", .str "object"), ("properties", .obj [])])]

/-- The `tools/list` result of lines 232-257. -/
def toolsListResult : Json :=
  .obj [("tools", .arr [echoDescriptor, timeDescriptor])]

/-- The `tools/call` branch, lines 258-288. `now` stands for the string
`std::ctime` produces in the "time" tool. A `.error` from a `value()` call
models the C++ exception propagating out of this branch. -/
def handleToolsCall (now : String) (id params : Json) : Except String Json :=
  (params.valueStr "name" "").bind fun tool_name =>
  (params.valueJson "arguments" (.obj [])).bind fun arguments =>
  if tool_name = "echo" then
    (arguments.valueStr "text" "").bind fun text =>
      .ok (mkResult id (.obj [("content", .arr [
        .obj [("type", .str "text"), ("text", .str ("Echo: " ++ text))]])]))
  else if tool_name = "time" then
    .ok (mkResult id (.obj [("content", .arr [
      .obj [("type", .str "text"), ("text", .str now)]])]))
  else
    .ok (mkError id (-32601) ("Method not found: " ++ tool_name))

/-- Method dispatch, lines 214-298, after `method`, `params` and `id` have been
extracted. `.ok none` is `return ""`. -/
def dispatch (now method : String) (params id : Json) : Except String (Option Json) :=
  if method = "initialize" then .ok (some (mkResult id initializeResult))
  else if method = "initialized" then .ok none
  else if method = "ping" then .ok (some (mkResult id (.obj [])))
  else if method = "tools/list" then .ok (some (mkResult id toolsListResult))
  else if method = "tools/call" then
    (handleToolsCall now id params).bind fun r => .ok (some r)
  else if method = "resources/list" then .ok (some (mkResult id (.obj [("resources", .arr [])])))
  else .ok (some (mkError id (-32601) ("Method not found: " ++ method)))

/-- The body of the `try` block of `process_request` after `json::parse`
succeeded, lines 202-300. -/
def handleParsed (now : String) (request : Json) : Except String (Option Json) :=
  if jsonrpcOk request then
    (request.valueStr "method" "").bind fun method =>
    (request.valueJson "params" (.obj [])).bind fun params =>
    (request.valueJson "id" .null).bind fun id =>
    dispatch now method params id
  else
    .ok none

/-- `SimpleTcpServer::process_request`, lines 198-312. The input is the outcome
of `json::parse` on the record; any exception (parse failure or a `value()`
type error inside the try block) reaches the catch block and becomes the
`-32700` response with a null id. -/
def process_request (now : String) (input : Except String Json) : Option Json :=
  match input with
  | .error e => some (mkError .null (-32700) ("Parse error: " ++ e))
  | .ok request =>
    match handleParsed now request with
    | .ok r => r
    | .error e => some (mkError .null (-32700) ("Parse error: " ++ e))

/-- The inner framing loop of `handle_client`, lines 175-178: repeatedly cut
the buffer at the first newline; the first component lists the complete
records in order, the second is the remainder kept in `data_buffer`. -/
def splitOnNewline : List Char → List (List Char) × List Char
  | [] => ([], [])
  | c :: rest =>
    if c = '\n' then
      ([] :: (splitOnNewline rest).1, (splitOnNewline rest).2)
    else
      match splitOnNewline rest with
      | ([], r) => ([], c :: r)
      | (l :: ls, r) => ((c :: l) :: ls, r)

/-- Lines 180-186 applied to each extracted record: empty records are skipped,
otherwise the record is processed and a non-empty response is sent with a
single '\n' appended. `process` abstracts `process_request` at the byte
level (`none` is the empty string). -/
def lineResponses (process : List Char → Option (List Char)) :
    List (List Char) → List (List Char)
  | [] => []
  | line :: rest =>
    if line = [] then lineResponses process rest
    else
      match process line with
      | none => lineResponses process rest
      | some resp => (resp ++ ['\n']) :: lineResponses process rest

/-- The `recv` loop of `handle_client`, lines 164-188: each received chunk is
appended to `data_buffer`, all complete records are handled, the remainder is
kept. Returns the sent responses and the final buffer contents. -/
def session (process : List Char → Option (List Char)) :
    List Char → List (List Char) → List (List Char) × List Char
  | buf, [] => ([], buf)
  | buf, chunk :: chunks =>
    match splitOnNewline (buf ++ chunk) with
    | (ls, r) =>
      match session process r chunks with
      | (out, rest) => (lineResponses process ls ++ out, rest)

lemma splitOnNewline_no_newline : ∀ s : List Char, '\n' ∉ s → splitOnNewline s = ([], s) := by
  intro s
  induction s with
  | nil => intro _; rfl
  | cons c rest ih =>
    intro h
    have hc : ¬ c = '\n' := fun hc => h (hc ▸ List.mem_cons_self c rest)
    have hr : '\n' ∉ rest := fun hm => h (List.mem_cons_of_mem _ hm)
    simp only [splitOnNewline, if_neg hc, ih hr]

lemma splitOnNewline_rest_no_newline : ∀ s : List Char, '\n' ∉ (splitOnNewline s).2 := by
  intro s
  induction s with
  | nil => simp [splitOnNewline]
  | cons c rest ih =>
    by_cases hc : c = '\n'
    · subst hc; simpa [splitOnNewline] using ih
    · cases h : splitOnNewline rest with
      | mk ls r =>
        rw [h] at ih
        cases ls with
        | nil =>
          simp only [splitOnNewline, if_neg hc, h]
          intro hm
          rcases List.mem_cons.mp hm with h1 | h2
          · exact hc h1.symm
          · exact ih h2
        | cons l ls' => simpa [splitOnNewline, if_neg hc, h] using ih

lemma splitOnNewline_lines_no_newline :
    ∀ s : List Char, ∀ l ∈ (splitOnNewline s).1, '\n' ∉ l := by
  intro s
  induction s with
  | nil => simp [splitOnNewline]
  | cons c rest ih =>
    by_cases hc : c = '\n'
    · subst hc
      simp only [splitOnNewline, if_pos rfl]
      intro l hl
      rcases List.mem_cons.mp hl with h1 | h2
      · subst h1; simp
      · exact ih l h2
    · cases h : splitOnNewline rest with
      | mk ls r =>
        rw [h] at ih
        cases ls with
        | nil => simp [splitOnNewline, if_neg hc, h]
        | cons l0 ls' =>
          simp only [splitOnNewline, if_neg hc, h]
          intro l hl
          rcases List.mem_cons.mp hl with h1 | h2
          · subst h1
            intro hm
            rcases List.mem_cons.mp hm with h1 | h2
            · exact hc h1.symm
            · exact ih l0 (List.mem_cons_self l0 ls') h2
          · exact ih l (List.mem_cons_of_mem _ h2)

lemma splitOnNewline_flatten : ∀ s : List Char,
    ((splitOnNewline s).1.map (fun l => l ++ ['\n'])).flatten ++ (splitOnNewline s).2 = s := by
  intro s
  induction s with
  | nil => rfl
  | cons c rest ih =>
    by_cases hc : c = '\n'
    · subst hc
      simpa [splitOnNewline] using ih
    · cases h : splitOnNewline rest with
      | mk ls r =>
        rw [h] at ih
        cases ls with
        | nil =>
          simp only [splitOnNewline, if_neg hc, h] at ih ⊢
          simp at ih ⊢
          exact ih
        | cons l0 ls' =>
          simp only [splitOnNewline, if_neg hc, h] at ih ⊢
          simpa using ih

lemma splitOnNewline_cons_nl (rest : List Char) :
    splitOnNewline ('\n' :: rest) =
      ([] :: (splitOnNewline rest).1, (splitOnNewline rest).2) := by
  simp [splitOnNewline]

lemma splitOnNewline_cons_other (c : Char) (rest : List Char) (hc : ¬ c = '\n') :
    splitOnNewline (c :: rest) =
      (match splitOnNewline rest with
       | ([], r) => ([], c :: r)
       | (l :: ls, r) => ((c :: l) :: ls, r)) := by
  simp [splitOnNewline, hc]

lemma splitOnNewline_append : ∀ a b : List Char,
    splitOnNewline (a ++ b) =
      ((splitOnNewline a).1 ++ (splitOnNewline ((splitOnNewline a).2 ++ b)).1,
       (splitOnNewline ((splitOnNewline a).2 ++ b)).2) := by
  intro a
  induction a with
  | nil => intro b; simp [splitOnNewline]
  | cons c a' ih =>
    intro b
    have ihb := ih b
    by_cases hc : c = '\n'
    · subst hc
      rw [List.cons_append, splitOnNewline_cons_nl, splitOnNewline_cons_nl, ihb]
      simp
    · cases h : splitOnNewline a' with
      | mk ls r =>
        rw [h] at ihb
        rw [List.cons_append, splitOnNewline_cons_other c (a' ++ b) hc,
            splitOnNewline_cons_other c a' hc, ihb, h]
        cases ls with
        | nil =>
          simp only [List.nil_append]
          rw [List.cons_append, splitOnNewline_cons_other c (r ++ b) hc]
        | cons l0 ls' => simp

lemma lineResponses_append (process : List Char → Option (List Char)) :
    ∀ xs ys, lineResponses process (xs ++ ys) =
      lineResponses process xs ++ lineResponses process ys := by
  intro xs ys
  induction xs with
  | nil => rfl
  | cons l rest ih =>
    by_cases hl : l = []
    · simp [lineResponses, hl, ih]
    · cases hp : process l <;> simp [lineResponses, hl, hp, ih]

lemma session_eq (process : List Char → Option (List Char)) :
    ∀ chunks (buf : List Char), '\n' ∉ buf →
      session process buf chunks =
        (lineResponses process (splitOnNewline (buf ++ chunks.flatten)).1,
         (splitOnNewline (buf ++ chunks.flatten)).2) := by
  intro chunks
  induction chunks with
  | nil =>
    intro buf hb
    simp [session, splitOnNewline_no_newline buf hb, lineResponses]
  | cons chunk cs ih =>
    intro buf hb
    cases hs : splitOnNewline (buf ++ chunk) with
    | mk ls r =>
      have hr : '\n' ∉ r := by
        have := splitOnNewline_rest_no_newline (buf ++ chunk)
        rw [hs] at this
        exact this
      simp only [session, hs, ih r hr]
      have hjoin : buf ++ (chunk :: cs).flatten = (buf ++ chunk) ++ cs.flatten := by
        simp [List.flatten_cons]
      rw [hjoin, splitOnNewline_append (buf ++ chunk) cs.flatten, hs]
      simp [lineResponses_append]

lemma valueStr_obj (fields : List (String × Json)) (k d : String) :
    Json.valueStr (.obj fields) k d =
      match lookupField fields k with
      | none => .ok d
      | some (.str s) => .ok s
      | some _ => .error "[json.exception.type_error.302] type must be string" := rfl

lemma getField_obj (fields : List (String × Json)) (k : String) :
    Json.getField (.obj fields) k = lookupField fields k := rfl

lemma ebind_ok {α β : Type} (a : α) (f : α → Except String β) :
    (Except.ok a : Except String α).bind f = f a := rfl

lemma ebind_error {α β : Type} (e : String) (f : α → Except String β) :
    (Except.error e : Except String α).bind f = .error e := rfl

lemma valueJson_obj (fields : List (String × Json)) (k : String) (d : Json) :
    Json.valueJson (.obj fields) k d = .ok ((lookupField fields k).getD d) := by
  cases h : lookupField fields k with
  | none => simp [Json.valueJson, h]
  | some v => simp [Json.valueJson, h]

lemma jsonrpcOk_true (request : Json) (h : jsonrpcOk request = true) :
    ∃ fields, request = .obj fields ∧
      lookupField fields "jsonrpc" = some (Json.str "2.0") := by
  cases request with
  | obj fields =>
    refine ⟨fields, rfl, ?_⟩
    simp only [jsonrpcOk, getField_obj] at h
    cases hl : lookupField fields "jsonrpc" with
    | none => rw [hl] at h; cases h
    | some v =>
      rw [hl] at h
      cases v with
      | str s =>
        have hs : s = "2.0" := by simpa using h
        rw [hs]
      | null => cases h
      | bool b => cases h
      | num n => cases h
      | arr xs => cases h
      | obj fs => cases h
  | null => simp [jsonrpcOk, Json.getField] at h
  | bool b => simp [jsonrpcOk, Json.getField] at h
  | num n => simp [jsonrpcOk, Json.getField] at h
  | str s => simp [jsonrpcOk, Json.getField] at h
  | arr xs => simp [jsonrpcOk, Json.getField] at h

lemma handleToolsCall_cases (now : String) (id params : Json) :
    (∃ res, handleToolsCall now id params = .ok (mkResult id res)) ∨
    (∃ c m, handleToolsCall now id params = .ok (mkError id c m)) ∨
    (∃ e, handleToolsCall now id params = .error e) := by
  unfold handleToolsCall
  cases params.valueStr "name" "" with
  | error e => right; right; exact ⟨e, rfl⟩
  | ok tool_name =>
    rw [ebind_ok]
    cases params.valueJson "arguments" (.obj []) with
    | error e => right; right; exact ⟨e, rfl⟩
    | ok arguments =>
      rw [ebind_ok]
      by_cases h1 : tool_name = "echo"
      · rw [if_pos h1]
        cases arguments.valueStr "text" "" with
        | error e => right; right; exact ⟨e, rfl⟩
        | ok text => left; exact ⟨_, rfl⟩
      · rw [if_neg h1]
        by_cases h2 : tool_name = "time"
        · rw [if_pos h2]; left; exact ⟨_, rfl⟩
        · rw [if_neg h2]; right; left; exact ⟨_, _, rfl⟩

lemma dispatch_cases (now method : String) (params id : Json) :
    (method = "initialized" ∧ dispatch now method params id = .ok none) ∨
    (¬ method = "initialized" ∧
      ((∃ res, dispatch now method params id = .ok (some (mkResult id res))) ∨
       (∃ c m, dispatch now method params id = .ok (some (mkError id c m))) ∨
       (∃ e, dispatch now method params id = .error e))) := by
  unfold dispatch
  by_cases m1 : method = "initialize"
  · rw [if_pos m1]
    right
    exact ⟨by rw [m1]; decide, Or.inl ⟨_, rfl⟩⟩
  · rw [if_neg m1]
    by_cases m2 : method = "initialized"
    · rw [if_pos m2]; left; exact ⟨m2, rfl⟩
    · rw [if_neg m2]
      by_cases m3 : method = "ping"
      · rw [if_pos m3]; right; exact ⟨m2, Or.inl ⟨_, rfl⟩⟩
      · rw [if_neg m3]
        by_cases m4 : method = "tools/list"
        · rw [if_pos m4]; right; exact ⟨m2, Or.inl ⟨_, rfl⟩⟩
        · rw [if_neg m4]
          by_cases m5 : method = "tools/call"
          · rw [if_pos m5]
            right
            refine ⟨m2, ?_⟩
            rcases handleToolsCall_cases now id params with ⟨res, h⟩ | ⟨c, m, h⟩ | ⟨e, h⟩
            · rw [h, ebind_ok]; left; exact ⟨res, rfl⟩
            · rw [h, ebind_ok]; right; left; exact ⟨c, m, rfl⟩
            · rw [h, ebind_error]; right; right; exact ⟨e, rfl⟩
          · rw [if_neg m5]
            by_cases m6 : method = "resources/list"
            · rw [if_pos m6]; right; exact ⟨m2, Or.inl ⟨_, rfl⟩⟩
            · rw [if_neg m6]; right; exact ⟨m2, Or.inr (Or.inl ⟨_, _, rfl⟩)⟩

lemma handleParsed_obj_eq (now : String) (fields : List (String × Json))
    (hv : lookupField fields "jsonrpc" = some (Json.str "2.0")) :
    handleParsed now (.obj fields) =
      (Json.valueStr (.obj fields) "method" "").bind fun method =>
        dispatch now method ((lookupField fields "params").getD (.obj []))
          ((lookupField fields "id").getD .null) := by
  have hok : jsonrpcOk (.obj fields) = true := by simp [jsonrpcOk, getField_obj, hv]
  simp only [handleParsed, hok, if_true]
  cases Json.valueStr (.obj fields) "method" "" with
  | error e => rfl
  | ok m => simp only [ebind_ok, valueJson_obj]

lemma handleParsed_cases (now : String) (fields : List (String × Json))
    (hv : lookupField fields "jsonrpc" = some (Json.str "2.0")) :
    (lookupField fields "method" = some (Json.str "initialized") ∧
       handleParsed now (.obj fields) = .ok none) ∨
    (¬ lookupField fields "method" = some (Json.str "initialized") ∧
       ((∃ id res, handleParsed now (.obj fields) = .ok (some (mkResult id res))) ∨
        (∃ id c m, handleParsed now (.obj fields) = .ok (some (mkError id c m))) ∨
        (∃ e, handleParsed now (.obj fields) = .error e))) := by
  rw [handleParsed_obj_eq now fields hv, valueStr_obj]
  cases hm : lookupField fields "method" with
  | none =>
    right
    refine ⟨by simp, ?_⟩
    rcases dispatch_cases now "" ((lookupField fields "params").getD (.obj []))
        ((lookupField fields "id").getD .null) with ⟨hm2, _⟩ | ⟨_, hrest⟩
    · exact absurd hm2 (by decide)
    · rcases hrest with ⟨res, h⟩ | ⟨c, m, h⟩ | ⟨e, h⟩
      · exact Or.inl ⟨_, _, h⟩
      · exact Or.inr (Or.inl ⟨_, _, _, h⟩)
      · exact Or.inr (Or.inr ⟨_, h⟩)
  | some v =>
    cases v with
    | str s =>
      rcases dispatch_cases now s ((lookupField fields "params").getD (.obj []))
          ((lookupField fields "id").getD .null) with ⟨hm2, hd⟩ | ⟨hm2, hrest⟩
      · left
        exact ⟨by rw [hm2], hd⟩
      · right
        refine ⟨fun hcon => hm2 (by simpa using hcon), ?_⟩
        rcases hrest with ⟨res, h⟩ | ⟨c, m, h⟩ | ⟨e, h⟩
        · exact Or.inl ⟨_, _, h⟩
        · exact Or.inr (Or.inl ⟨_, _, _, h⟩)
        · exact Or.inr (Or.inr ⟨_, h⟩)
    | null => right; exact ⟨by simp, Or.inr (Or.inr ⟨_, rfl⟩)⟩
    | bool b => right; exact ⟨by simp, Or.inr (Or.inr ⟨_, rfl⟩)⟩
    | num n => right; exact ⟨by simp, Or.inr (Or.inr ⟨_, rfl⟩)⟩
    | arr xs => right; exact ⟨by simp, Or.inr (Or.inr ⟨_, rfl⟩)⟩
    | obj fs => right; exact ⟨by simp, Or.inr (Or.inr ⟨_, rfl⟩)⟩

lemma process_request_obj (now : String) (fields : List (String × Json))
    (hv : lookupField fields "jsonrpc" = some (Json.str "2.0")) :
    (lookupField fields "method" = some (Json.str "initialized") ∧
       process_request now (.ok (.obj fields)) = none) ∨
    (¬ lookupField fields "method" = some (Json.str "initialized") ∧
       ∃ j, process_request now (.ok (.obj fields)) = some j) := by
  rcases handleParsed_cases now fields hv with ⟨hm, h⟩ | ⟨hm, hcase⟩
  · left
    refine ⟨hm, ?_⟩
    simp only [process_request, h]
  · right
    refine ⟨hm, ?_⟩
    rcases hcase with ⟨id, res, h⟩ | ⟨id, c, m, h⟩ | ⟨e, h⟩
    · exact ⟨mkResult id res, by simp only [process_request, h]⟩
    · exact ⟨mkError id c m, by simp only [process_request, h]⟩
    · exact ⟨mkError .null (-32700) ("Parse error: " ++ e), by simp only [process_request, h]⟩

lemma mkResult_shape (id res : Json) :
    (mkResult id res).getField "jsonrpc" = some (Json.str "2.0") ∧
    (mkResult id res).hasField "id" = true ∧
    (mkResult id res).hasField "result" = true ∧
    (mkResult id res).hasField "error" = false :=
  ⟨rfl, rfl, rfl, rfl⟩

lemma mkError_shape (id : Json) (c : Int) (m : String) :
    (mkError id c m).getField "jsonrpc" = some (Json.str "2.0") ∧
    (mkError id c m).hasField "id" = true ∧
    (mkError id c m).hasField "result" = false ∧
    (mkError id c m).hasField "error" = true :=
  ⟨rfl, rfl, rfl, rfl⟩

/-- C1 (counterexample): the notification `{"jsonrpc":"2.0","method":"ping","params":{}}`
has a method field and no id field, yet `process_request` answers it with the
ping result response carrying a null id instead of returning the empty string;
the claim that no notification is answered, whatever the method, is false. -/
theorem C1_counterexample :
    process_request "x" (.ok (.obj [("jsonrpc", .str "2.0"), ("method", .str "ping"),
      ("params", .obj [])])) = some (mkResult .null (.obj [])) ∧
    (some (mkResult .null (.obj [])) : Option Json) ≠ none :=
  ⟨rfl, by simp⟩

/-- C1 (amended): for an inbound notification (valid JSON-RPC 2.0 object with a
method field and no id field), `process_request` returns the empty string
exactly when the method is "initialized"; a notification with any other method
is answered (with a null id). -/
theorem C1_notification_none_iff (now : String) (fields : List (String × Json))
    (hv : lookupField fields "jsonrpc" = some (Json.str "2.0"))
    (_hmethod : (lookupField fields "method").isSome = true)
    (_hid : lookupField fields "id" = none) :
    process_request now (.ok (.obj fields)) = none ↔
      lookupField fields "method" = some (Json.str "initialized") := by
  rcases process_request_obj now fields hv with ⟨hm, h⟩ | ⟨hm, j, h⟩
  · rw [h]
    simp [hm]
  · rw [h]
    simp [hm]

/-- C1 (witness): the amended theorem applied to the "initialized" notification. -/
theorem C1_witness :
    process_request "w" (.ok (.obj [("jsonrpc", Json.str "2.0"),
      ("method", Json.str "initialized"), ("params", Json.obj [])])) = none ↔
      lookupField [("jsonrpc", Json.str "2.0"), ("method", Json.str "initialized"),
        ("params", Json.obj [])] "method" = some (Json.str "initialized") :=
  C1_notification_none_iff "w" _ rfl rfl rfl

/-- C2 (counterexample): the record `{"id":1,"method":"ping"}` is an object
whose jsonrpc member is missing and which carries the recoverable id 1, yet
`process_request` emits nothing at all (empty string) instead of a `-32600`
response carrying that id. -/
theorem C2_counterexample :
    process_request "x" (.ok (.obj [("id", .num 1), ("method", .str "ping")])) = none ∧
    (process_request "x" (.ok (.obj [("id", .num 1), ("method", .str "ping")]))).isSome
      = false :=
  ⟨rfl, rfl⟩

/-- C2 (amended): every record that parses as JSON but whose jsonrpc member is
missing or not the string "2.0" is dropped with no response, whether or not it
carries an id; no `-32600` response is ever produced for it. -/
theorem C2_malformed_dropped (now : String) (j : Json)
    (h : j.hasField "jsonrpc" = false ∨ ¬ j.getField "jsonrpc" = some (Json.str "2.0")) :
    process_request now (.ok j) = none := by
  have hok : jsonrpcOk j = false := by
    cases hj : jsonrpcOk j
    · rfl
    · exfalso
      obtain ⟨fields, rfl, hv⟩ := jsonrpcOk_true j hj
      rcases h with h | h
      · simp [Json.hasField, getField_obj, hv] at h
      · exact h (by rw [getField_obj]; exact hv)
  simp only [process_request, handleParsed, hok]
  simp

/-- C2 (witness): the amended theorem applied to `{"id":1}`. -/
theorem C2_witness :
    process_request "w" (.ok (.obj [("id", Json.num 1)])) = none :=
  C2_malformed_dropped "w" _ (Or.inl rfl)

/-- C3 (counterexample): in the reply to `tools/list` the echo descriptor has
no member named "input_schema" (and neither has the time descriptor); the
schema is exposed under the key "inputSchema" instead. -/
theorem C3_counterexample :
    process_request "x" (.ok (.obj [("jsonrpc", .str "2.0"), ("id", .num 2),
      ("method", .str "tools/list"), ("params", .obj [])])) =
      some (mkResult (.num 2) toolsListResult) ∧
    echoDescriptor.getField "input_schema" = none ∧
    timeDescriptor.getField "input_schema" = none :=
  ⟨rfl, rfl, rfl⟩

/-- C3 (amended): every `tools/list` request is answered with a tools array
holding a descriptor for "echo" with description "Echo the input text" and,
under the key "inputSchema" (not "input_schema"), the schema
{type: "object", properties: {text: {type: "string", ...}}, required: ["text"]},
and a descriptor for "time". -/
theorem C3_tools_list (now : String) (id params : Json) :
    process_request now (.ok (.obj [("jsonrpc", .str "2.0"), ("id", id),
      ("method", .str "tools/list"), ("params", params)])) =
      some (mkResult id toolsListResult) ∧
    toolsListResult.getField "tools" = some (.arr [echoDescriptor, timeDescriptor]) ∧
    echoDescriptor.getField "name" = some (.str "echo") ∧
    echoDescriptor.getField "description" = some (.str "Echo the input text") ∧
    echoDescriptor.getField "inputSchema" = some (.obj [
      ("type", .str "object"),
      ("properties", .obj [("text", .obj [("type", .str "string"),
        ("description", .str "Text to echo")])]),
      ("required", .arr [.str "text"])]) ∧
    timeDescriptor.getField "name" = some (.str "time") :=
  ⟨rfl, rfl, rfl, rfl, rfl, rfl⟩

/-- C4 (counterexample): the batched array `[]` gets no reply at all:
`process_request` returns the empty string, not a Response carrying `-32600`. -/
theorem C4_counterexample :
    process_request "x" (.ok (.arr [])) = none ∧
    (process_request "x" (.ok (.arr []))).isSome = false :=
  ⟨rfl, rfl⟩

/-- C4 (amended): every inbound record that parses as a JSON array is dropped
with no response: the jsonrpc guard fails because an array has no members. -/
theorem C4_array_dropped (now : String) (xs : List Json) :
    process_request now (.ok (.arr xs)) = none := by
  have hok : jsonrpcOk (.arr xs) = false := rfl
  simp only [process_request, handleParsed, hok]
  simp

/-- C5: the initialize request of the handshake with id 1 is answered by the
response with id 1 and result {protocolVersion: "2024-11-05", capabilities:
{tools: {}, resources: {}}, serverInfo: {name: "SimpleTcpServer", version:
"1.0.0"}}; the subsequent "initialized" notification gets no response; and the
client loop sends each non-empty reply with exactly one trailing newline. -/
theorem C5_handshake (now : String) :
    process_request now (.ok (.obj [("jsonrpc", .str "2.0"), ("id", .num 1),
      ("method", .str "initialize"),
      ("params", .obj [("protocolVersion", .str "2024-11-05"),
        ("clientInfo", .obj [("name", .str "X"), ("version", .str "1")]),
        ("capabilities", .obj [])])])) =
      some (mkResult (.num 1) initializeResult) ∧
    process_request now (.ok (.obj [("jsonrpc", .str "2.0"),
      ("method", .str "initialized"), ("params", .obj [])])) = none ∧
    (∀ process (line resp : List Char) rest, ¬ line = [] → process line = some resp →
      lineResponses process (line :: rest) =
        (resp ++ ['\n']) :: lineResponses process rest) := by
  refine ⟨rfl, rfl, ?_⟩
  intro process line resp rest hl hp
  simp [lineResponses, hl, hp]

/-- C5 (witness): the handshake theorem applied to a concrete one-record step. -/
theorem C5_witness :
    lineResponses (fun _ => some ['o', 'k']) (['p'] :: []) =
      (['o', 'k'] ++ ['\n']) :: lineResponses (fun _ => some ['o', 'k']) [] :=
  (C5_handshake "w").2.2 (fun _ => some ['o', 'k']) ['p'] ['o', 'k'] [] (by decide) rfl

/-- C6: a record whose bytes do not parse as JSON is answered with the response
whose id is null and whose error is {code: -32700, message: "Parse error: "
followed by the parser's message}; and the per-record loop handles the
remaining records of the stream unchanged after such a record, so a single bad
message does not close the session. -/
theorem C6_parse_error (now e : String) :
    process_request now (.error e) =
      some (mkError .null (-32700) ("Parse error: " ++ e)) ∧
    (mkError .null (-32700) ("Parse error: " ++ e)).getField "id" = some .null ∧
    (mkError .null (-32700) ("Parse error: " ++ e)).getField "error" =
      some (.obj [("code", .num (-32700)), ("message", .str ("Parse error: " ++ e))]) ∧
    (∀ process (bad : List Char) rest,
      lineResponses process (bad :: rest) =
        lineResponses process [bad] ++ lineResponses process rest) := by
  refine ⟨rfl, rfl, rfl, ?_⟩
  intro process bad rest
  by_cases hb : bad = []
  · simp [lineResponses, hb]
  · cases hp : process bad <;> simp [lineResponses, hb, hp]

/-- C7 (counterexample): `{"jsonrpc":"2.0","id":5,"method":"initialized","params":{}}`
is a valid request whose method is outside the claimed registered set
{initialize, ping, tools/list, tools/call, resources/list}, yet the server
emits nothing at all instead of a `-32601` response echoing id 5. -/
theorem C7_counterexample :
    process_request "x" (.ok (.obj [("jsonrpc", .str "2.0"), ("id", .num 5),
      ("method", .str "initialized"), ("params", .obj [])])) = none ∧
    (none : Option Json) ≠
      some (mkError (.num 5) (-32601) "Method not found: initialized") :=
  ⟨rfl, by simp⟩

/-- C7 (amended): for every valid request whose method is none of initialize,
initialized, ping, tools/list, tools/call, resources/list, the reply echoes the
request id and carries error {code: -32601, message: "Method not found: "
followed by the method}; "initialized" must be excluded from the quantifier
because even with an id it gets no response. -/
theorem C7_method_not_found (now m : String) (id params : Json)
    (h : ¬ m ∈ (["initialize", "initialized", "ping", "tools/list", "tools/call",
      "resources/list"] : List String)) :
    process_request now (.ok (.obj [("jsonrpc", .str "2.0"), ("id", id),
      ("method", .str m), ("params", params)])) =
      some (mkError id (-32601) ("Method not found: " ++ m)) := by
  simp only [List.mem_cons, not_or] at h
  obtain ⟨h1, h2, h3, h4, h5, h6, -⟩ := h
  have hreq : handleParsed now (.obj [("jsonrpc", .str "2.0"), ("id", id),
      ("method", .str m), ("params", params)]) = dispatch now m params id := by
    rw [handleParsed_obj_eq now
      [("jsonrpc", .str "2.0"), ("id", id), ("method", .str m), ("params", params)] rfl]
    rfl
  simp only [process_request, hreq, dispatch, if_neg h1, if_neg h2, if_neg h3,
    if_neg h4, if_neg h5, if_neg h6]

/-- C7 (witness): the amended theorem applied to method "nope" with id 5. -/
theorem C7_witness :
    process_request "w" (.ok (.obj [("jsonrpc", Json.str "2.0"), ("id", Json.num 5),
      ("method", Json.str "nope"), ("params", Json.obj [])])) =
      some (mkError (Json.num 5) (-32601) ("Method not found: " ++ "nope")) :=
  C7_method_not_found "w" "nope" (Json.num 5) (Json.obj []) (by decide)

/-- C8: calling the echo tool with arguments {"text": t} yields the result
{"content": [{"type": "text", "text": "Echo: " ++ t}]}, for every string t and
every request id; in particular t = "Hello" gives "Echo: Hello". -/
theorem C8_echo_tool (now t : String) (id : Json) :
    process_request now (.ok (.obj [("jsonrpc", .str "2.0"), ("id", id),
      ("method", .str "tools/call"),
      ("params", .obj [("name", .str "echo"),
        ("arguments", .obj [("text", .str t)])])])) =
      some (mkResult id (.obj [("content", .arr [.obj [("type", .str "text"),
        ("text", .str ("Echo: " ++ t))]])])) := rfl

/-- C9: the framer splits the inbound stream on newline: the records and the
remainder reassemble exactly to the input, no record and no remainder contains
a newline, feeding any chunk sequence through the recv loop produces exactly
the responses of the records of the concatenated stream with the buffer left
holding the bytes after the last newline, and an empty record is discarded
without producing any response. -/
theorem C9_framing :
    (∀ s : List Char,
      ((splitOnNewline s).1.map (fun l => l ++ ['\n'])).flatten ++ (splitOnNewline s).2
        = s) ∧
    (∀ s l, l ∈ (splitOnNewline s).1 → l.contains '\n' = false) ∧
    (∀ s : List Char, (splitOnNewline s).2.contains '\n' = false) ∧
    (∀ process chunks, session process [] chunks =
      (lineResponses process (splitOnNewline chunks.flatten).1,
       (splitOnNewline chunks.flatten).2)) ∧
    (∀ process rest, lineResponses process ([] :: rest) = lineResponses process rest) := by
  refine ⟨splitOnNewline_flatten, ?_, ?_, ?_, ?_⟩
  · intro s l hl
    simpa using splitOnNewline_lines_no_newline s l hl
  · intro s
    simpa using splitOnNewline_rest_no_newline s
  · intro process chunks
    simpa using session_eq process chunks [] (by simp)
  · intro process rest
    simp [lineResponses]

/-- C9 (witness): the record "a" of the stream "a\n" contains no newline. -/
theorem C9_witness : (['a'] : List Char).contains '\n' = false :=
  C9_framing.2.1 ['a', '\n'] ['a'] (by decide)

/-- C10: every non-empty reply of `process_request` is a JSON object carrying
jsonrpc "2.0", an id member (possibly null), and exactly one of result or
error; and an exception inside the handler never propagates: it is turned into
the `-32700` response, so `process_request` is total. -/
theorem C10_response_invariant :
    (∀ now input j, process_request now input = some j →
      j.getField "jsonrpc" = some (Json.str "2.0") ∧
      j.hasField "id" = true ∧
      (j.hasField "result" = true ↔ ¬ j.hasField "error" = true)) ∧
    (∀ now request e, handleParsed now request = .error e →
      process_request now (.ok request) =
        some (mkError .null (-32700) ("Parse error: " ++ e))) := by
  constructor
  · intro now input j h
    cases input with
    | error e =>
      simp only [process_request, Option.some.injEq] at h
      subst h
      obtain ⟨s1, s2, s3, s4⟩ := mkError_shape .null (-32700) ("Parse error: " ++ e)
      exact ⟨s1, s2, by rw [s3, s4]; simp⟩
    | ok request =>
      cases hok : jsonrpcOk request with
      | false =>
        simp only [process_request, handleParsed, hok] at h
        simp at h
      | true =>
        obtain ⟨fields, rfl, hv⟩ := jsonrpcOk_true request hok
        rcases handleParsed_cases now fields hv with ⟨hm, hh⟩ | ⟨hm, hcase⟩
        · simp only [process_request, hh] at h
          exact Option.noConfusion h
        · rcases hcase with ⟨id, res, hh⟩ | ⟨id, c, m, hh⟩ | ⟨e, hh⟩
          · simp only [process_request, hh, Option.some.injEq] at h
            subst h
            obtain ⟨s1, s2, s3, s4⟩ := mkResult_shape id res
            exact ⟨s1, s2, by rw [s3, s4]; simp⟩
          · simp only [process_request, hh, Option.some.injEq] at h
            subst h
            obtain ⟨s1, s2, s3, s4⟩ := mkError_shape id c m
            exact ⟨s1, s2, by rw [s3, s4]; simp⟩
          · simp only [process_request, hh, Option.some.injEq] at h
            subst h
            obtain ⟨s1, s2, s3, s4⟩ :=
              mkError_shape .null (-32700) ("Parse error: " ++ e)
            exact ⟨s1, s2, by rw [s3, s4]; simp⟩
  · intro now request e h
    simp only [process_request, h]

/-- C10 (witness): the invariant applied to the reply to a ping notification. -/
theorem C10_witness :
    (mkResult Json.null (Json.obj [])).getField "jsonrpc" = some (Json.str "2.0") ∧
    (mkResult Json.null (Json.obj [])).hasField "id" = true ∧
    ((mkResult Json.null (Json.obj [])).hasField "result" = true ↔
      ¬ (mkResult Json.null (Json.obj [])).hasField "error" = true) :=
  C10_response_invariant.1 "w" (.ok (.obj [("jsonrpc", Json.str "2.0"),
    ("method", Json.str "ping"), ("params", Json.obj [])])) _ rfl

end SimpleTcp
